import Mathlib

/-!
Verification of the auto-copy plugin core of n1panel_parser.py: the TTL
locale cache with capacity-triggered cleanup, the per-lot item processor
with politeness delays and cooperative cancellation, the session start
guard, and a bounded worker-pool model.
-/

namespace AutoCopy

/-- Source constant MAX_WORKERS = 8. -/
def MAX_WORKERS : Nat := 8

/-- Source constant LOCALE_CACHE_TTL = 1200 (seconds). -/
def LOCALE_CACHE_TTL : Nat := 1200

/-- Source constant REQUEST_DELAY_MIN = 0.5 (seconds). -/
def REQUEST_DELAY_MIN : ℚ := 1/2

/-- Source constant REQUEST_DELAY_MAX = 1.5 (seconds). -/
def REQUEST_DELAY_MAX : ℚ := 3/2

/-- Source constant MAX_CACHE_SIZE = 300. -/
def MAX_CACHE_SIZE : Nat := 300

/-- Source constant CACHE_CLEANUP_THRESHOLD = 200. -/
def CACHE_CLEANUP_THRESHOLD : Nat := 200

/-- The two locale variants the plugin requests ("ru" and "en"). -/
inductive Locale
  | ru
  | en
  deriving DecidableEq

/-- A fetched lot page: short and full description texts, either of which
may be absent (None in Python). -/
structure LotPage where
  short_description : Option String
  full_description : Option String
  deriving DecidableEq

/-- One entry of locale_cache. The source keys the dict by the string
f"{lot_id}_{locale}", which is in bijection with the pair
(lot_id, locale); the value stored is the tuple (lot_page, timestamp).
The Python dict is modelled as a list in insertion order whose keys are
pairwise distinct. -/
structure CacheEntry where
  key : Nat × Locale
  page : LotPage
  ts : ℚ
  deriving DecidableEq

/-- The locale_cache dict, in insertion order. -/
abbrev Cache := List CacheEntry

/-- The list of keys of the cache, in insertion order. -/
def cacheKeys (c : Cache) : List (Nat × Locale) := c.map (·.key)

/-- Dictionary read locale_cache[cache_key], returning the stored
(lot_page, timestamp) pair when the key is present. -/
def cacheLookup (c : Cache) (k : Nat × Locale) : Option (LotPage × ℚ) :=
  match c.find? (fun e => decide (e.key = k)) with
  | some e => some (e.page, e.ts)
  | none => none

/-- The read-and-expiry-check portion of get_cached_locale_data
(source lines 247-253): a hit is returned only when the key is present
and current_time - timestamp < LOCALE_CACHE_TTL; otherwise the caller
falls through to a remote fetch.  This is the Get of the cache contract;
it never mutates the cache, so an expired entry stays physically present. -/
def cacheGet (c : Cache) (now : ℚ) (k : Nat × Locale) : Option LotPage × Bool :=
  match cacheLookup c k with
  | some (pg, ts) =>
      if now - ts < (LOCALE_CACHE_TTL : ℚ) then (some pg, true) else (none, false)
  | none => (none, false)

/-- C1: on the TTL cache, Get returns the stored value as a hit exactly
when the key is present with age now - insertedAt strictly below the TTL
(1200 s); an absent key or an entry of age at least the TTL yields a miss
(found = false), while an expired entry remains physically present in the
store (Get does not remove it). -/
theorem cache_ttl_get (c : Cache) (now : ℚ) (k : Nat × Locale) :
    (∀ pg ts, cacheLookup c k = some (pg, ts) →
      ((now - ts < (LOCALE_CACHE_TTL : ℚ) → cacheGet c now k = (some pg, true)) ∧
       ((LOCALE_CACHE_TTL : ℚ) ≤ now - ts →
          cacheGet c now k = (none, false) ∧ cacheLookup c k ≠ none))) ∧
    (cacheLookup c k = none → cacheGet c now k = (none, false)) := by
  constructor
  · intro pg ts hlook
    constructor
    · intro hfresh
      unfold cacheGet
      rw [hlook]
      simp [hfresh]
    · intro hstale
      unfold cacheGet
      rw [hlook]
      simp [not_lt.mpr hstale, hlook]
  · intro hnone
    unfold cacheGet
    rw [hnone]

/-- Witness for C1 at a concrete cache: a fresh entry (age 90 < 1200) is
returned as a hit. -/
theorem cache_ttl_get_witness :
    cacheGet [⟨(5, Locale.ru), ⟨some "s", some "d"⟩, 10⟩] 100 (5, Locale.ru) =
      (some ⟨some "s", some "d"⟩, true) :=
  ((cache_ttl_get [⟨(5, Locale.ru), ⟨some "s", some "d"⟩, 10⟩] 100
      (5, Locale.ru)).1 ⟨some "s", some "d"⟩ 10 (by decide)).1
    (by norm_num [LOCALE_CACHE_TTL])

/-- The comparison used by the cleanup sort: key=lambda x: x[1][1], the
stored timestamp, ascending. -/
def tsLE (a b : CacheEntry) : Prop := a.ts ≤ b.ts

instance : DecidableRel tsLE := fun a b => inferInstanceAs (Decidable (a.ts ≤ b.ts))

instance : IsTotal CacheEntry tsLE := ⟨fun a b => le_total a.ts b.ts⟩

instance : IsTrans CacheEntry tsLE := ⟨fun _ _ _ hab hbc => le_trans hab hbc⟩

/-- The number of entries cleanup_cache removes from a cache of the given
size: to_remove = max(0, size - (MAX_CACHE_SIZE - CACHE_CLEANUP_THRESHOLD)),
computed in ℤ exactly as the source computes it in Python ints. -/
def toRemoveCount (size : Nat) : Nat :=
  (max 0 ((size : ℤ) - ((MAX_CACHE_SIZE : ℤ) - (CACHE_CLEANUP_THRESHOLD : ℤ)))).toNat

/-- cleanup_cache (source lines 191-215).  Without force the pass returns
immediately when the size is at most CACHE_CLEANUP_THRESHOLD.  Otherwise
the entries are sorted by stored timestamp ascending and the keys of the
first to_remove entries of the sorted list are popped from the dict;
popping by key is modelled by filtering the insertion-ordered list, which
is how a Python dict behaves under pop. -/
def cleanup_cache (c : Cache) (force : Bool) : Cache :=
  if force = false ∧ c.length ≤ CACHE_CLEANUP_THRESHOLD then c
  else
    let sortedCache := List.insertionSort tsLE c
    let removedKeys := (sortedCache.take (toRemoveCount c.length)).map (·.key)
    c.filter (fun e => decide (e.key ∉ removedKeys))

/-- When the cleanup pass actually runs, the surviving cache is a
permutation of the sorted list with its oldest to_remove entries dropped. -/
theorem cleanup_cache_perm_drop (c : Cache) (force : Bool)
    (hnodup : (cacheKeys c).Nodup)
    (hrun : ¬(force = false ∧ c.length ≤ CACHE_CLEANUP_THRESHOLD)) :
    List.Perm (cleanup_cache c force)
      ((List.insertionSort tsLE c).drop (toRemoveCount c.length)) := by
  unfold cleanup_cache
  rw [if_neg hrun]
  set s := List.insertionSort tsLE c with hs
  set n := toRemoveCount c.length with hn
  set rk := (s.take n).map (fun e => e.key) with hrk
  have hperm : List.Perm s c := List.perm_insertionSort tsLE c
  have hkeys : (s.map (fun e => e.key)).Nodup := by
    have := (hperm.map (fun e => e.key)).nodup_iff
    exact this.mpr hnodup
  have hsplit : s.take n ++ s.drop n = s := List.take_append_drop n s
  have hfc : List.Perm (c.filter (fun e => decide (e.key ∉ rk)))
      (s.filter (fun e => decide (e.key ∉ rk))) :=
    (hperm.symm).filter _
  have htake : (s.take n).filter (fun e => decide (e.key ∉ rk)) = [] := by
    rw [List.filter_eq_nil_iff]
    intro e he
    simp only [decide_eq_true_eq, Decidable.not_not]
    exact List.mem_map_of_mem _ he
  have hdrop : (s.drop n).filter (fun e => decide (e.key ∉ rk)) = s.drop n := by
    rw [List.filter_eq_self]
    intro e he
    simp only [decide_eq_true_eq]
    intro hmem
    have hkeysplit : (s.take n).map (fun e => e.key) ++
        (s.drop n).map (fun e => e.key) = s.map (fun e => e.key) := by
      rw [← List.map_append, hsplit]
    rw [← hkeysplit] at hkeys
    rcases List.nodup_append.mp hkeys with ⟨_, _, hdisj⟩
    exact hdisj hmem (List.mem_map_of_mem _ he)
  have hfinal : s.filter (fun e => decide (e.key ∉ rk)) = s.drop n := by
    conv_lhs => rw [← hsplit]
    rw [List.filter_append, htake, hdrop, List.nil_append]
  rw [← hfinal]
  exact hfc

/-- C2: whenever a cleanup pass removes entries, every removed entry is at
least as old (by stored timestamp) as every surviving entry, the removal
count is clamped to be non-negative (a cache at or below
MAX_CACHE_SIZE - CACHE_CLEANUP_THRESHOLD = 100 entries loses nothing), the
post-cleanup size is exactly MAX_CACHE_SIZE - CACHE_CLEANUP_THRESHOLD
whenever at least one entry was removed, and without force the pass is a
no-op unless the size exceeds CACHE_CLEANUP_THRESHOLD = 200. -/
theorem cache_cleanup_spec (c : Cache) (force : Bool)
    (hnodup : (cacheKeys c).Nodup) :
    (force = false → c.length ≤ CACHE_CLEANUP_THRESHOLD → cleanup_cache c force = c) ∧
    (∀ x ∈ c, x ∉ cleanup_cache c force → ∀ y ∈ cleanup_cache c force, x.ts ≤ y.ts) ∧
    (c.length ≤ MAX_CACHE_SIZE - CACHE_CLEANUP_THRESHOLD →
      (cleanup_cache c force).length = c.length) ∧
    ((cleanup_cache c force).length < c.length →
      (cleanup_cache c force).length = MAX_CACHE_SIZE - CACHE_CLEANUP_THRESHOLD) := by
  by_cases hrun : force = false ∧ c.length ≤ CACHE_CLEANUP_THRESHOLD
  · have hid : cleanup_cache c force = c := by
      unfold cleanup_cache
      rw [if_pos hrun]
    refine ⟨fun _ _ => hid, ?_, fun _ => by rw [hid], fun hlt => absurd hlt (by rw [hid]; exact lt_irrefl _)⟩
    intro x hx hnx
    rw [hid] at hnx
    exact absurd hx hnx
  · have hperm := cleanup_cache_perm_drop c force hnodup hrun
    have hpermc : List.Perm (List.insertionSort tsLE c) c :=
      List.perm_insertionSort tsLE c
    have hslen : (List.insertionSort tsLE c).length = c.length := hpermc.length_eq
    have hsorted : List.Sorted tsLE (List.insertionSort tsLE c) :=
      List.sorted_insertionSort tsLE c
    have hlen : (cleanup_cache c force).length = c.length - toRemoveCount c.length := by
      rw [hperm.length_eq, List.length_drop, hslen]
    constructor
    · intro hf hle
      exact absurd ⟨hf, hle⟩ hrun
    refine ⟨?_, ?_, ?_⟩
    · -- removed entries are the oldest
      intro x hx hnx y hy
      set s := List.insertionSort tsLE c with hs
      set n := toRemoveCount c.length with hn
      have hxs : x ∈ s := hpermc.mem_iff.mpr hx
      have hys : y ∈ s.drop n := hperm.mem_iff.mp hy
      have hxtake : x ∈ s.take n := by
        rcases (List.mem_append.mp (by rw [List.take_append_drop n s]; exact hxs)) with h | h
        · exact h
        · exact absurd (hperm.mem_iff.mpr h) hnx
      have := List.pairwise_append.mp (by rw [List.take_append_drop n s]; exact hsorted)
      exact this.2.2 x hxtake y hys
    · -- clamped removal: small caches lose nothing
      intro hsmall
      rw [hlen]
      have : toRemoveCount c.length = 0 := by
        unfold toRemoveCount
        simp only [MAX_CACHE_SIZE, CACHE_CLEANUP_THRESHOLD] at hsmall ⊢
        omega
      omega
    · -- at least one removal forces post-size = 100
      intro hlt
      rw [hlen] at hlt ⊢
      unfold toRemoveCount at hlt ⊢
      simp only [MAX_CACHE_SIZE, CACHE_CLEANUP_THRESHOLD] at hlt ⊢
      omega

/-- Witness for C2 at a concrete cache of two entries: a forced pass on a
cache at or below 100 entries removes nothing. -/
theorem cache_cleanup_spec_witness :
    (cleanup_cache [⟨(1, Locale.ru), ⟨none, none⟩, 3⟩,
                    ⟨(1, Locale.en), ⟨none, none⟩, 7⟩] true).length = 2 :=
  (cache_cleanup_spec [⟨(1, Locale.ru), ⟨none, none⟩, 3⟩,
      ⟨(1, Locale.en), ⟨none, none⟩, 7⟩] true (by decide)).2.2.1 (by decide)

/-- The length of a cleanup result, when the pass actually runs. -/
theorem cleanup_cache_length (c : Cache) (force : Bool)
    (hnodup : (cacheKeys c).Nodup)
    (hrun : ¬(force = false ∧ c.length ≤ CACHE_CLEANUP_THRESHOLD)) :
    (cleanup_cache c force).length = c.length - toRemoveCount c.length := by
  rw [(cleanup_cache_perm_drop c force hnodup hrun).length_eq, List.length_drop,
    (List.perm_insertionSort tsLE c).length_eq]

/-- Cleanup only ever removes entries, so it cannot grow the cache. -/
theorem cleanup_cache_length_le (c : Cache) (force : Bool) :
    (cleanup_cache c force).length ≤ c.length := by
  unfold cleanup_cache
  split
  · exact le_refl _
  · exact List.length_filter_le _ c

/-- Cleanup filters the insertion-ordered list, so distinctness of the
keys is preserved. -/
theorem cleanup_cache_keys_nodup (c : Cache) (force : Bool)
    (hnodup : (cacheKeys c).Nodup) : (cacheKeys (cleanup_cache c force)).Nodup := by
  unfold cleanup_cache
  split
  · exact hnodup
  · exact List.Nodup.sublist ((List.filter_sublist c).map _) hnodup

/-- Dictionary write locale_cache[cache_key] = (lot_page, current_time):
an existing key keeps its dict position and its stored tuple is replaced;
a new key is appended at the end, matching Python dict semantics. -/
def cacheInsert (c : Cache) (k : Nat × Locale) (pg : LotPage) (t : ℚ) : Cache :=
  if k ∈ cacheKeys c then
    c.map (fun e => if e.key = k then ⟨k, pg, t⟩ else e)
  else c ++ [⟨k, pg, t⟩]

/-- The cache write step of get_cached_locale_data (source lines 263-268):
locale_cache[cache_key] is assigned while locale_cache_lock is held and,
when the size then exceeds MAX_CACHE_SIZE, cleanup_cache() is called with
that non-reentrant threading.Lock still held; cleanup_cache at once tries
to acquire the same lock again (source line 193), so the thread
self-deadlocks and the put never completes.  none models that hang; a put
that stays within the maximum completes with the entry stored. -/
def cachePut (c : Cache) (k : Nat × Locale) (pg : LotPage) (t : ℚ) : Option Cache :=
  if MAX_CACHE_SIZE < (cacheInsert c k pg t).length then none
  else some (cacheInsert c k pg t)

/-- The keys after an insert: unchanged when the key was present,
extended by the key at the end otherwise. -/
theorem cacheKeys_cacheInsert (c : Cache) (k : Nat × Locale) (pg : LotPage) (t : ℚ) :
    cacheKeys (cacheInsert c k pg t) =
      if k ∈ cacheKeys c then cacheKeys c else cacheKeys c ++ [k] := by
  by_cases h : k ∈ cacheKeys c
  · rw [if_pos h]
    unfold cacheInsert
    rw [if_pos h]
    unfold cacheKeys
    rw [List.map_map]
    apply List.map_congr_left
    intro e _
    by_cases hek : e.key = k
    · simp [Function.comp, hek]
    · simp [Function.comp, hek]
  · rw [if_neg h]
    unfold cacheInsert
    rw [if_neg h]
    unfold cacheKeys
    rw [List.map_append]
    rfl

/-- Insert grows the cache by at most one entry. -/
theorem cacheInsert_length_le (c : Cache) (k : Nat × Locale) (pg : LotPage) (t : ℚ) :
    (cacheInsert c k pg t).length ≤ c.length + 1 := by
  unfold cacheInsert
  split
  · rw [List.length_map]
    exact Nat.le_succ _
  · rw [List.length_append]
    exact le_refl _

/-- Insert preserves distinctness of the keys. -/
theorem cacheInsert_keys_nodup (c : Cache) (k : Nat × Locale) (pg : LotPage) (t : ℚ)
    (hnodup : (cacheKeys c).Nodup) : (cacheKeys (cacheInsert c k pg t)).Nodup := by
  rw [cacheKeys_cacheInsert]
  by_cases h : k ∈ cacheKeys c
  · rw [if_pos h]
    exact hnodup
  · rw [if_neg h]
    refine List.nodup_append.mpr ⟨hnodup, List.nodup_singleton k, ?_⟩
    intro a ha hb
    rw [List.mem_singleton] at hb
    subst hb
    exact h ha

/-- A cache already at capacity: 300 entries keyed (0, ru) .. (299, ru). -/
def bigCache : Cache :=
  (List.range 300).map (fun i => ⟨(i, Locale.ru), ⟨none, none⟩, 0⟩)

/-- Every key of bigCache differs from (500, loc). -/
theorem bigCache_fresh_entry (loc : Locale) :
    ∀ e ∈ bigCache, e.key ≠ (500, loc) := by
  intro e he hk
  rw [bigCache] at he
  obtain ⟨i, hi, rfl⟩ := List.mem_map.mp he
  rw [List.mem_range] at hi
  have hfst : i = 500 := congrArg Prod.fst hk
  omega

/-- The key (500, loc) is absent from bigCache. -/
theorem bigCache_key_not_mem (loc : Locale) : (500, loc) ∉ cacheKeys bigCache := by
  intro h
  rw [cacheKeys] at h
  obtain ⟨e, he, hk⟩ := List.mem_map.mp h
  exact bigCache_fresh_entry loc e he hk

/-- Get on the fresh key misses regardless of the clock. -/
theorem bigCache_get_fresh (now : ℚ) (loc : Locale) :
    cacheGet bigCache now (500, loc) = (none, false) := by
  have hfind : bigCache.find? (fun e => decide (e.key = (500, loc))) = none := by
    rw [List.find?_eq_none]
    intro e he
    simp only [decide_eq_true_eq]
    exact bigCache_fresh_entry loc e he
  unfold cacheGet cacheLookup
  rw [hfind]

/-- bigCache holds exactly MAX_CACHE_SIZE entries. -/
theorem bigCache_length : bigCache.length = MAX_CACHE_SIZE := by
  rw [bigCache, List.length_map, List.length_range]
  rfl

/-- A put of the fresh key into the full cache hangs: the insert reaches
301 entries and the nested cleanup call deadlocks on the held lock. -/
theorem bigCache_put_fresh (loc : Locale) (pg : LotPage) (t : ℚ) :
    cachePut bigCache (500, loc) pg t = none := by
  have hins : (cacheInsert bigCache (500, loc) pg t).length = 301 := by
    unfold cacheInsert
    rw [if_neg (bigCache_key_not_mem loc), List.length_append, bigCache_length]
    rfl
  unfold cachePut
  rw [hins]
  rfl

/-- C3 (code bug): at a cache already holding MAX_CACHE_SIZE = 300
entries, a Put of a fresh key leaves 301 entries and invokes the
automatic cleanup pass with the non-reentrant locale_cache_lock still
held (source lines 263-268 calling line 193), so the pass self-deadlocks:
the put never returns and the count is never brought back to
MAX_CACHE_SIZE - CACHE_CLEANUP_THRESHOLD. -/
theorem cache_put_overflow_hangs :
    bigCache.length = MAX_CACHE_SIZE ∧
    (cacheInsert bigCache (500, Locale.ru) ⟨none, none⟩ 1).length =
      MAX_CACHE_SIZE + 1 ∧
    cachePut bigCache (500, Locale.ru) ⟨none, none⟩ 1 = none := by
  refine ⟨bigCache_length, ?_, bigCache_put_fresh Locale.ru ⟨none, none⟩ 1⟩
  unfold cacheInsert
  rw [if_neg (bigCache_key_not_mem Locale.ru), List.length_append, bigCache_length]
  rfl

/-- Per-locale cache counters cache_hit_stats and cache_miss_stats. -/
structure Stats where
  hits : Locale → Nat
  misses : Locale → Nat

/-- update_cache_stats (source lines 231-237). -/
def update_cache_stats (st : Stats) (loc : Locale) (cache_hit : Bool) : Stats :=
  if cache_hit then
    { st with hits := fun l => if l = loc then st.hits l + 1 else st.hits l }
  else
    { st with misses := fun l => if l = loc then st.misses l + 1 else st.misses l }

/-- The shared mutable state the processor touches: locale_cache and the
statistics counters. -/
structure PState where
  cache : Cache
  stats : Stats

/-- Externally visible effects of a processor call, in order: a real
remote fetch (acc.get_lot_page) or a politeness sleep of a duration. -/
inductive Effect
  | fetched (lotId : Nat) (loc : Locale)
  | slept (d : ℚ)
  deriving DecidableEq

/-- get_cached_locale_data (source lines 239-278).  The remote fetch is
an oracle returning the page, or none when acc.get_lot_page raises.
Returns some ((lot_page, from_cache), new state, effects) when the call
completes: a fresh cache entry is a hit with a hit recorded and no
effect; otherwise the oracle is consulted exactly once, a successful
result is written through cachePut with a miss recorded, and a failed
fetch lands in the exception handler, which records a miss and yields no
page.  When the write pushes the cache past MAX_CACHE_SIZE the nested
cleanup call self-deadlocks (see cachePut) before the miss is recorded —
the update_cache_stats call at line 270 sits after the with-block — so
the whole call hangs: none. -/
def get_cached_locale_data (fetch : Nat → Locale → Option LotPage)
    (st : PState) (now : ℚ) (lotId : Nat) (loc : Locale) :
    Option ((Option LotPage × Bool) × PState × List Effect) :=
  match cacheGet st.cache now (lotId, loc) with
  | (some pg, true) =>
      some ((some pg, true),
        { st with stats := update_cache_stats st.stats loc true }, [])
  | _ =>
      match fetch lotId loc with
      | some pg =>
          match cachePut st.cache (lotId, loc) pg now with
          | some c1 =>
              some ((some pg, false),
                { cache := c1, stats := update_cache_stats st.stats loc false },
                [Effect.fetched lotId loc])
          | none => none
      | none =>
          some ((none, false),
            { st with stats := update_cache_stats st.stats loc false },
            [Effect.fetched lotId loc])

/-- The subcategory of a lot shortcut: its id and name. -/
structure SubCategory where
  id : Nat
  name : String
  deriving DecidableEq

/-- The fields of a LotShortcut that build_json_for_lot reads. -/
structure LotShortcut where
  id : Nat
  description : Option String
  price : Option ℚ
  subcategory : Option SubCategory
  deriving DecidableEq

/-- Python truthiness fallback a or b for an optional string: the string
itself when present and non-empty, the fallback otherwise. -/
def pyOrS (o : Option String) (d : String) : String :=
  match o with
  | some s => if s = "" then d else s
  | none => d

/-- price_ = lot.price or 1.0 (source line 316): None and 0.0 are falsy. -/
def effectivePrice (p : Option ℚ) : ℚ :=
  match p with
  | some q => if q = 0 then 1 else q
  | none => 1

/-- Decimal digit expansion of a fractional part num/den, with enough
fuel for the double-precision prices the source handles. -/
def fracDigits : Nat → Nat → Nat → String
  | 0, _, _ => ""
  | _ + 1, _, 0 => ""
  | fuel + 1, den, num =>
      toString (num * 10 / den) ++ fracDigits fuel den (num * 10 % den)

/-- str(price_) for a non-integral price, as a plain decimal numeral. -/
def ratDecString (q : ℚ) : String :=
  (if q < 0 then "-" else "") ++ toString (q.num.natAbs / q.den) ++ "." ++
    fracDigits 17 q.den (q.num.natAbs % q.den)

/-- price_str (source line 317): the bare integer numeral when the price
equals int(price_), its decimal rendering otherwise. -/
def price_str_of (q : ℚ) : String :=
  if q.den = 1 then toString q.num else ratDecString q

/-- The merged export dict built by build_json_for_lot (source lines
321-338), one field per dict key; the fields[...] keys are flattened
into legal Lean names. -/
structure ExportRecord where
  query : String
  form_created_at : String
  node_id : String
  location : String
  deleted : String
  summary_ru : String
  summary_en : String
  images : String
  price : String
  amount : String
  active : String
  desc_ru : String
  desc_en : String
  payment_msg_ru : String
  payment_msg_en : String
  type_field : String
  deriving DecidableEq

/-- All sixteen values of the export dict, in source order. -/
def recordValues (r : ExportRecord) : List String :=
  [r.query, r.form_created_at, r.node_id, r.location, r.deleted,
   r.summary_ru, r.summary_en, r.images, r.price, r.amount, r.active,
   r.desc_ru, r.desc_en, r.payment_msg_ru, r.payment_msg_en, r.type_field]

/-- Outcome of build_json_for_lot: the export dict, or the
InterruptedError raised at one of the three cancellation checks. -/
inductive BuildResult
  | cancelled
  | ok (r : ExportRecord)
  deriving DecidableEq

/-- short_ru (source lines 295-298): with a ru page the short
description falls back to the listing description of the lot and then to
the sentinel; with the page missing the initial sentinel value stands. -/
def short_ru_of (pageRu : Option LotPage) (lot : LotShortcut) : String :=
  match pageRu with
  | some pg => pyOrS pg.short_description (pyOrS lot.description "1")
  | none => "1"

/-- short_en (source lines 310-313): the en short description falls back
directly to the sentinel, with no intermediate fallback. -/
def short_en_of (pageEn : Option LotPage) : String :=
  match pageEn with
  | some pg => pyOrS pg.short_description "1"
  | none => "1"

/-- desc_ru and desc_en (source lines 296-314): the full description
falls back directly to the sentinel for both locales. -/
def desc_of (page : Option LotPage) : String :=
  match page with
  | some pg => pyOrS pg.full_description "1"
  | none => "1"

/-- node_id = lot.subcategory.id if lot.subcategory else 0 (line 318). -/
def node_id_of (lot : LotShortcut) : Nat :=
  match lot.subcategory with
  | some sc => sc.id
  | none => 0

/-- sc_name_ru = lot.subcategory.name if lot.subcategory else "???". -/
def sc_name_of (lot : LotShortcut) : String :=
  match lot.subcategory with
  | some sc => sc.name
  | none => "???"

/-- The export dict literal of build_json_for_lot (source lines 321-338)
as a function of the two fetched pages. -/
def mkRecord (lot : LotShortcut) (formT : Int) (pageRu pageEn : Option LotPage) :
    ExportRecord :=
  { query := "", form_created_at := toString formT,
    node_id := toString (node_id_of lot), location := "", deleted := "",
    summary_ru := short_ru_of pageRu lot, summary_en := short_en_of pageEn,
    images := "", price := price_str_of (effectivePrice lot.price),
    amount := "1", active := "on", desc_ru := desc_of pageRu,
    desc_en := desc_of pageEn, payment_msg_ru := "1", payment_msg_en := "1",
    type_field := sc_name_of lot }

/-- build_json_for_lot (source lines 280-338).  cancel i is the value of
cancel_event.is_set() at the i-th check of this call (0 on entry, 1 after
the ru variant, 2 after the en variant); dRu and dEn are the values
random.uniform(REQUEST_DELAY_MIN, REQUEST_DELAY_MAX) returns for the two
politeness sleeps; formT is int(time.time()) read at record creation.
none propagates a locale phase that hung inside its cache write. -/
def build_json_for_lot (fetch : Nat → Locale → Option LotPage)
    (cancel : Nat → Bool) (st : PState) (now : ℚ) (dRu dEn : ℚ) (formT : Int)
    (lot : LotShortcut) : Option (BuildResult × PState × List Effect) :=
  if cancel 0 then some (BuildResult.cancelled, st, [])
  else
    match get_cached_locale_data fetch st now lot.id Locale.ru with
    | none => none
    | some resRu =>
        let effRu := resRu.2.2 ++ (if resRu.1.2 then [] else [Effect.slept dRu])
        if cancel 1 then some (BuildResult.cancelled, resRu.2.1, effRu)
        else
          match get_cached_locale_data fetch resRu.2.1 now lot.id Locale.en with
          | none => none
          | some resEn =>
              let effEn :=
                resEn.2.2 ++ (if resEn.1.2 then [] else [Effect.slept dEn])
              if cancel 2 then
                some (BuildResult.cancelled, resEn.2.1, effRu ++ effEn)
              else
                some (BuildResult.ok (mkRecord lot formT resRu.1.1 resEn.1.1),
                  resEn.2.1, effRu ++ effEn)

/-- The per-lot status process_lot appends to the progress queue. -/
inductive LotStatus
  | success
  | canceled
  deriving DecidableEq

/-- process_lot (source lines 340-361): the cancellation token is read
once more on entry (poll index 0; the checks inside build_json_for_lot
are polls 1 to 3 of the same token); a cancelled build raises
InterruptedError, caught and reported as canceled, and a completed build
is reported as success.  A build that hung inside a cache write never
returns, so the whole call is none. -/
def process_lot (fetch : Nat → Locale → Option LotPage) (cancel : Nat → Bool)
    (st : PState) (now : ℚ) (dRu dEn : ℚ) (formT : Int) (lot : LotShortcut) :
    Option (Option ExportRecord × LotStatus × PState × List Effect) :=
  if cancel 0 then some (none, LotStatus.canceled, st, [])
  else
    match build_json_for_lot fetch (fun i => cancel (i + 1)) st now dRu dEn formT lot with
    | none => none
    | some (BuildResult.cancelled, st1, eff) =>
        some (none, LotStatus.canceled, st1, eff)
    | some (BuildResult.ok r, st1, eff) =>
        some (some r, LotStatus.success, st1, eff)

/-- A Get result is either a fresh hit or a miss. -/
theorem cacheGet_shape (c : Cache) (now : ℚ) (k : Nat × Locale) :
    (∃ pg, cacheGet c now k = (some pg, true)) ∨ cacheGet c now k = (none, false) := by
  unfold cacheGet
  cases hl : cacheLookup c k with
  | some v =>
      obtain ⟨pg, ts⟩ := v
      by_cases hfresh : now - ts < (LOCALE_CACHE_TTL : ℚ)
      · exact Or.inl ⟨pg, by simp [hfresh]⟩
      · exact Or.inr (by simp [hfresh])
  | none => exact Or.inr rfl

/-- get_cached_locale_data on a fresh cache hit: the stored page comes
back with from_cache = true, a hit is recorded, and no effect happens. -/
theorem gcld_hit (fetch : Nat → Locale → Option LotPage) (st : PState)
    (now : ℚ) (lotId : Nat) (loc : Locale) (pg : LotPage)
    (h : cacheGet st.cache now (lotId, loc) = (some pg, true)) :
    get_cached_locale_data fetch st now lotId loc =
      some ((some pg, true),
        { st with stats := update_cache_stats st.stats loc true }, []) := by
  unfold get_cached_locale_data
  rw [h]

/-- get_cached_locale_data on a miss with a successful remote fetch whose
cache write completes: one fetch effect, the page stored, a miss
recorded. -/
theorem gcld_miss_ok (fetch : Nat → Locale → Option LotPage) (st : PState)
    (now : ℚ) (lotId : Nat) (loc : Locale) (pg : LotPage) (c1 : Cache)
    (h : cacheGet st.cache now (lotId, loc) = (none, false))
    (hf : fetch lotId loc = some pg)
    (hput : cachePut st.cache (lotId, loc) pg now = some c1) :
    get_cached_locale_data fetch st now lotId loc =
      some ((some pg, false),
        { cache := c1, stats := update_cache_stats st.stats loc false },
        [Effect.fetched lotId loc]) := by
  simp only [get_cached_locale_data, h, hf, hput]

/-- get_cached_locale_data on a miss whose successful fetch pushes the
cache past the maximum: the nested cleanup deadlocks and the call hangs. -/
theorem gcld_miss_hang (fetch : Nat → Locale → Option LotPage) (st : PState)
    (now : ℚ) (lotId : Nat) (loc : Locale) (pg : LotPage)
    (h : cacheGet st.cache now (lotId, loc) = (none, false))
    (hf : fetch lotId loc = some pg)
    (hput : cachePut st.cache (lotId, loc) pg now = none) :
    get_cached_locale_data fetch st now lotId loc = none := by
  simp only [get_cached_locale_data, h, hf, hput]

/-- get_cached_locale_data on a miss with a failed remote fetch: one
fetch effect, no page, a miss is recorded, the cache is untouched. -/
theorem gcld_miss_fail (fetch : Nat → Locale → Option LotPage) (st : PState)
    (now : ℚ) (lotId : Nat) (loc : Locale)
    (h : cacheGet st.cache now (lotId, loc) = (none, false))
    (hf : fetch lotId loc = none) :
    get_cached_locale_data fetch st now lotId loc =
      some ((none, false),
        { st with stats := update_cache_stats st.stats loc false },
        [Effect.fetched lotId loc]) := by
  unfold get_cached_locale_data
  rw [h, hf]

/-- A completed call logs no effect (a hit) or exactly one fetch. -/
theorem gcld_effects (fetch : Nat → Locale → Option LotPage) (st : PState)
    (now : ℚ) (lotId : Nat) (loc : Locale)
    (res : (Option LotPage × Bool) × PState × List Effect)
    (h : get_cached_locale_data fetch st now lotId loc = some res) :
    res.2.2 = [] ∨ res.2.2 = [Effect.fetched lotId loc] := by
  rcases cacheGet_shape st.cache now (lotId, loc) with ⟨pg, hs⟩ | hs
  · rw [gcld_hit fetch st now lotId loc pg hs] at h
    obtain rfl := Option.some.inj h
    left
    rfl
  · cases hf : fetch lotId loc with
    | some pg =>
        cases hput : cachePut st.cache (lotId, loc) pg now with
        | some c1 =>
            rw [gcld_miss_ok fetch st now lotId loc pg c1 hs hf hput] at h
            obtain rfl := Option.some.inj h
            right
            rfl
        | none =>
            rw [gcld_miss_hang fetch st now lotId loc pg hs hf hput] at h
            exact Option.noConfusion h
    | none =>
        rw [gcld_miss_fail fetch st now lotId loc hs hf] at h
        obtain rfl := Option.some.inj h
        right
        rfl

/-- With the token never observed set and both locale phases completing,
build_json_for_lot returns the merged record built from the two pages the
phases produced, together with their effect logs in order. -/
theorem build_no_cancel (fetch : Nat → Locale → Option LotPage)
    (cancel : Nat → Bool) (st : PState) (now dRu dEn : ℚ) (formT : Int)
    (lot : LotShortcut) (hc : ∀ i, cancel i = false)
    (resRu resEn : (Option LotPage × Bool) × PState × List Effect)
    (hru : get_cached_locale_data fetch st now lot.id Locale.ru = some resRu)
    (hen : get_cached_locale_data fetch resRu.2.1 now lot.id Locale.en = some resEn) :
    build_json_for_lot fetch cancel st now dRu dEn formT lot =
      some (BuildResult.ok (mkRecord lot formT resRu.1.1 resEn.1.1),
        resEn.2.1,
        (resRu.2.2 ++ (if resRu.1.2 then [] else [Effect.slept dRu])) ++
        (resEn.2.2 ++ (if resEn.1.2 then [] else [Effect.slept dEn]))) := by
  unfold build_json_for_lot
  simp only [hc, Bool.false_eq_true, if_false, hru, hen]

/-- A ru phase that hangs inside its cache write hangs the whole build. -/
theorem build_ru_hang (fetch : Nat → Locale → Option LotPage)
    (cancel : Nat → Bool) (st : PState) (now dRu dEn : ℚ) (formT : Int)
    (lot : LotShortcut) (h0 : cancel 0 = false)
    (hru : get_cached_locale_data fetch st now lot.id Locale.ru = none) :
    build_json_for_lot fetch cancel st now dRu dEn formT lot = none := by
  unfold build_json_for_lot
  simp only [h0, Bool.false_eq_true, if_false, hru]

/-- An en phase that hangs inside its cache write hangs the whole build. -/
theorem build_en_hang (fetch : Nat → Locale → Option LotPage)
    (cancel : Nat → Bool) (st : PState) (now dRu dEn : ℚ) (formT : Int)
    (lot : LotShortcut)
    (resRu : (Option LotPage × Bool) × PState × List Effect)
    (h0 : cancel 0 = false) (h1 : cancel 1 = false)
    (hru : get_cached_locale_data fetch st now lot.id Locale.ru = some resRu)
    (hen : get_cached_locale_data fetch resRu.2.1 now lot.id Locale.en = none) :
    build_json_for_lot fetch cancel st now dRu dEn formT lot = none := by
  unfold build_json_for_lot
  simp only [h0, h1, Bool.false_eq_true, if_false, hru, hen]

/-- C4 as amended: the processor handles the locale variants in the fixed
order ru then en under keys (item id, variant).  With both variants fresh
in the cache and the token never set, both lookups hit: no remote fetch,
no politeness sleep, one hit recorded per variant, the cache untouched —
so re-processing within the TTL window costs zero fetches and zero
delays.  With both variants missing, the remote fetches succeeding, and
both cache writes completing (the insert not pushing the size past the
maximum), each variant is fetched exactly once in order, each result is
written to the cache with a miss recorded, and each fetch is followed by
one politeness sleep whose duration lies in
[REQUEST_DELAY_MIN, REQUEST_DELAY_MAX].  When a write does push the size
past the maximum, the nested cleanup self-deadlocks and the call never
completes (see C3).  The token is re-read after each variant, and a set
token at either re-check cancels the build. -/
theorem processor_cache_order_delay (fetch : Nat → Locale → Option LotPage)
    (cancel : Nat → Bool) (st : PState) (now dRu dEn : ℚ) (formT : Int)
    (lot : LotShortcut)
    (hdRu : REQUEST_DELAY_MIN ≤ dRu ∧ dRu ≤ REQUEST_DELAY_MAX)
    (hdEn : REQUEST_DELAY_MIN ≤ dEn ∧ dEn ≤ REQUEST_DELAY_MAX) :
    (∀ pgRu pgEn,
      cacheGet st.cache now (lot.id, Locale.ru) = (some pgRu, true) →
      cacheGet st.cache now (lot.id, Locale.en) = (some pgEn, true) →
      (∀ i, cancel i = false) →
      build_json_for_lot fetch cancel st now dRu dEn formT lot =
        some (BuildResult.ok (mkRecord lot formT (some pgRu) (some pgEn)),
          ⟨st.cache,
            update_cache_stats (update_cache_stats st.stats Locale.ru true)
              Locale.en true⟩, [])) ∧
    (∀ pgRu pgEn c1 c2,
      cacheGet st.cache now (lot.id, Locale.ru) = (none, false) →
      fetch lot.id Locale.ru = some pgRu →
      cachePut st.cache (lot.id, Locale.ru) pgRu now = some c1 →
      cacheGet c1 now (lot.id, Locale.en) = (none, false) →
      fetch lot.id Locale.en = some pgEn →
      cachePut c1 (lot.id, Locale.en) pgEn now = some c2 →
      (∀ i, cancel i = false) →
      build_json_for_lot fetch cancel st now dRu dEn formT lot =
        some (BuildResult.ok (mkRecord lot formT (some pgRu) (some pgEn)),
          ⟨c2,
            update_cache_stats (update_cache_stats st.stats Locale.ru false)
              Locale.en false⟩,
          [Effect.fetched lot.id Locale.ru, Effect.slept dRu,
           Effect.fetched lot.id Locale.en, Effect.slept dEn]) ∧
      (∀ d, Effect.slept d ∈
          [Effect.fetched lot.id Locale.ru, Effect.slept dRu,
           Effect.fetched lot.id Locale.en, Effect.slept dEn] →
        REQUEST_DELAY_MIN ≤ d ∧ d ≤ REQUEST_DELAY_MAX)) ∧
    (∀ pgRu,
      cancel 0 = false →
      cacheGet st.cache now (lot.id, Locale.ru) = (none, false) →
      fetch lot.id Locale.ru = some pgRu →
      cachePut st.cache (lot.id, Locale.ru) pgRu now = none →
      build_json_for_lot fetch cancel st now dRu dEn formT lot = none) ∧
    (∀ resRu,
      cancel 0 = false → cancel 1 = true →
      get_cached_locale_data fetch st now lot.id Locale.ru = some resRu →
      build_json_for_lot fetch cancel st now dRu dEn formT lot =
        some (BuildResult.cancelled, resRu.2.1,
          resRu.2.2 ++ (if resRu.1.2 then [] else [Effect.slept dRu]))) ∧
    (∀ resRu resEn,
      cancel 0 = false → cancel 1 = false → cancel 2 = true →
      get_cached_locale_data fetch st now lot.id Locale.ru = some resRu →
      get_cached_locale_data fetch resRu.2.1 now lot.id Locale.en = some resEn →
      build_json_for_lot fetch cancel st now dRu dEn formT lot =
        some (BuildResult.cancelled, resEn.2.1,
          (resRu.2.2 ++ (if resRu.1.2 then [] else [Effect.slept dRu])) ++
          (resEn.2.2 ++ (if resEn.1.2 then [] else [Effect.slept dEn])))) := by
  refine ⟨?_, ?_, ?_, ?_, ?_⟩
  · intro pgRu pgEn h1 h2 hc
    have e1 := gcld_hit fetch st now lot.id Locale.ru pgRu h1
    have e2 := gcld_hit fetch
      { st with stats := update_cache_stats st.stats Locale.ru true }
      now lot.id Locale.en pgEn h2
    rw [build_no_cancel fetch cancel st now dRu dEn formT lot hc _ _ e1 e2]
    simp
  · intro pgRu pgEn c1 c2 h1 hf1 hp1 h2 hf2 hp2 hc
    have e1 := gcld_miss_ok fetch st now lot.id Locale.ru pgRu c1 h1 hf1 hp1
    have e2 := gcld_miss_ok fetch
      { cache := c1, stats := update_cache_stats st.stats Locale.ru false }
      now lot.id Locale.en pgEn c2 h2 hf2 hp2
    constructor
    · rw [build_no_cancel fetch cancel st now dRu dEn formT lot hc _ _ e1 e2]
      simp
    · intro d hd
      simp only [List.mem_cons, List.mem_singleton] at hd
      rcases hd with h | h | h | h
      · exact absurd h (by simp)
      · obtain rfl : d = dRu := by simpa using h
        exact hdRu
      · exact absurd h (by simp)
      · obtain rfl : d = dEn := by simpa using h
        exact hdEn
  · intro pgRu h0 h1 hf1 hp1
    exact build_ru_hang fetch cancel st now dRu dEn formT lot h0
      (gcld_miss_hang fetch st now lot.id Locale.ru pgRu h1 hf1 hp1)
  · intro resRu h0 h1 hru
    unfold build_json_for_lot
    simp [h0, h1, hru]
  · intro resRu resEn h0 h1 h2 hru hen
    unfold build_json_for_lot
    simp [h0, h1, h2, hru, hen]

/-- Witness for the amended C4: a cache holding fresh entries for both
variants of lot 7 makes the whole build effect-free (no fetch, no
sleep). -/
theorem processor_cache_order_delay_witness :
    build_json_for_lot (fun _ _ => none) (fun _ => false)
        ⟨[⟨(7, Locale.ru), ⟨some "a", some "b"⟩, 0⟩,
          ⟨(7, Locale.en), ⟨some "c", some "d"⟩, 0⟩],
         ⟨fun _ => 0, fun _ => 0⟩⟩ 5 1 1 0 ⟨7, none, some 3, none⟩ =
      some (BuildResult.ok (mkRecord ⟨7, none, some 3, none⟩ 0
          (some ⟨some "a", some "b"⟩) (some ⟨some "c", some "d"⟩)),
        ⟨[⟨(7, Locale.ru), ⟨some "a", some "b"⟩, 0⟩,
          ⟨(7, Locale.en), ⟨some "c", some "d"⟩, 0⟩],
         update_cache_stats (update_cache_stats ⟨fun _ => 0, fun _ => 0⟩
           Locale.ru true) Locale.en true⟩, []) :=
  (processor_cache_order_delay (fun _ _ => none) (fun _ => false)
      ⟨[⟨(7, Locale.ru), ⟨some "a", some "b"⟩, 0⟩,
        ⟨(7, Locale.en), ⟨some "c", some "d"⟩, 0⟩],
       ⟨fun _ => 0, fun _ => 0⟩⟩ 5 1 1 0 ⟨7, none, some 3, none⟩
      (by norm_num [REQUEST_DELAY_MIN, REQUEST_DELAY_MAX])
      (by norm_num [REQUEST_DELAY_MIN, REQUEST_DELAY_MAX])).1
    ⟨some "a", some "b"⟩ ⟨some "c", some "d"⟩
    (by simp [cacheGet, cacheLookup, List.find?]; norm_num [LOCALE_CACHE_TTL])
    (by simp [cacheGet, cacheLookup, List.find?]; norm_num [LOCALE_CACHE_TTL])
    (fun _ => rfl)

/-- Counterexample to C4 as stated: at a cache already holding 300
entries, the ru variant misses and its remote fetch succeeds, yet the
build hangs inside the cache write — no miss is recorded, no politeness
sleep happens, and the call never completes. -/
theorem processor_overflow_hang_cex :
    cacheGet bigCache 0 (500, Locale.ru) = (none, false) ∧
    build_json_for_lot (fun _ _ => some ⟨some "s", some "d"⟩) (fun _ => false)
        ⟨bigCache, ⟨fun _ => 0, fun _ => 0⟩⟩ 0 1 1 0 ⟨500, none, none, none⟩ =
      none := by
  refine ⟨bigCache_get_fresh 0 Locale.ru, ?_⟩
  exact build_ru_hang _ _ _ _ _ _ _ _ rfl
    (gcld_miss_hang _ _ _ _ _ _ (bigCache_get_fresh 0 Locale.ru) rfl
      (bigCache_put_fresh Locale.ru ⟨some "s", some "d"⟩ 0))

/-- C5 as amended: with the token never set and both locale phases
completing, the processor returns an export record; when the ru variant
misses the cache and its remote fetch fails (a path that performs no
cache write and so cannot hang), the record carries the sentinel "1" in
both ru text fields and the effect log holds exactly one ru fetch
attempt — no retry; symmetrically for the en variant relative to the
state the ru phase produced.  The fetch failure itself is never fatal:
only the OTHER variant's over-capacity cache write can keep a record from
being returned (see C3). -/
theorem fetch_failure_sentinel (fetch : Nat → Locale → Option LotPage)
    (cancel : Nat → Bool) (st : PState) (now dRu dEn : ℚ) (formT : Int)
    (lot : LotShortcut) (hc : ∀ i, cancel i = false) :
    (∀ resRu resEn,
      get_cached_locale_data fetch st now lot.id Locale.ru = some resRu →
      get_cached_locale_data fetch resRu.2.1 now lot.id Locale.en = some resEn →
      ∃ r st2 eff, build_json_for_lot fetch cancel st now dRu dEn formT lot =
          some (BuildResult.ok r, st2, eff)) ∧
    (∀ resEn,
      cacheGet st.cache now (lot.id, Locale.ru) = (none, false) →
      fetch lot.id Locale.ru = none →
      get_cached_locale_data fetch
          { st with stats := update_cache_stats st.stats Locale.ru false }
          now lot.id Locale.en = some resEn →
      ∃ r st2 eff,
        build_json_for_lot fetch cancel st now dRu dEn formT lot =
          some (BuildResult.ok r, st2, eff) ∧
        r.summary_ru = "1" ∧ r.desc_ru = "1" ∧
        eff.count (Effect.fetched lot.id Locale.ru) = 1) ∧
    (∀ resRu,
      get_cached_locale_data fetch st now lot.id Locale.ru = some resRu →
      cacheGet resRu.2.1.cache now (lot.id, Locale.en) = (none, false) →
      fetch lot.id Locale.en = none →
      ∃ r st2 eff,
        build_json_for_lot fetch cancel st now dRu dEn formT lot =
          some (BuildResult.ok r, st2, eff) ∧
        r.summary_en = "1" ∧ r.desc_en = "1" ∧
        eff.count (Effect.fetched lot.id Locale.en) = 1) := by
  refine ⟨?_, ?_, ?_⟩
  · intro resRu resEn hru hen
    rw [build_no_cancel fetch cancel st now dRu dEn formT lot hc resRu resEn hru hen]
    exact ⟨_, _, _, rfl⟩
  · intro resEn hmiss hfail hEn
    have e1 := gcld_miss_fail fetch st now lot.id Locale.ru hmiss hfail
    rw [build_no_cancel fetch cancel st now dRu dEn formT lot hc _ _ e1 hEn]
    refine ⟨_, _, _, rfl, by simp [mkRecord, short_ru_of],
      by simp [mkRecord, desc_of], ?_⟩
    rcases gcld_effects fetch _ now lot.id Locale.en resEn hEn with he | he <;>
      cases hb : resEn.1.2 <;>
      simp [he, hb]
  · intro resRu hru h2 hf
    have e2 := gcld_miss_fail fetch resRu.2.1 now lot.id Locale.en h2 hf
    rw [build_no_cancel fetch cancel st now dRu dEn formT lot hc resRu _ hru e2]
    refine ⟨_, _, _, rfl, by simp [mkRecord, short_en_of],
      by simp [mkRecord, desc_of], ?_⟩
    rcases gcld_effects fetch st now lot.id Locale.ru resRu hru with he | he <;>
      cases hb : resRu.1.2 <;>
      simp [he, hb]

/-- Witness for the amended C5: an empty cache and an always-failing
fetch still yield an export record for lot 9, with the ru sentinel fields
and one ru fetch attempt. -/
theorem fetch_failure_sentinel_witness :
    ∃ r st2 eff,
      build_json_for_lot (fun _ _ => none) (fun _ => false)
          ⟨[], ⟨fun _ => 0, fun _ => 0⟩⟩ 0 1 1 0 ⟨9, none, none, none⟩ =
        some (BuildResult.ok r, st2, eff) ∧
      r.summary_ru = "1" ∧ r.desc_ru = "1" ∧
      eff.count (Effect.fetched 9 Locale.ru) = 1 :=
  (fetch_failure_sentinel (fun _ _ => none) (fun _ => false)
      ⟨[], ⟨fun _ => 0, fun _ => 0⟩⟩ 0 1 1 0 ⟨9, none, none, none⟩
      (fun _ => rfl)).2.1
    ((none, false),
      ⟨[], update_cache_stats (update_cache_stats ⟨fun _ => 0, fun _ => 0⟩
        Locale.ru false) Locale.en false⟩,
      [Effect.fetched 9 Locale.en])
    rfl rfl rfl

/-- The fetch oracle of the C5 counterexample: the ru fetch fails, the en
fetch succeeds. -/
def fetchMixed : Nat → Locale → Option LotPage :=
  fun _ loc => match loc with
    | Locale.ru => none
    | Locale.en => some ⟨some "s", some "d"⟩

/-- Counterexample to C5 as stated: with the ru fetch failing and the en
fetch succeeding at a cache already holding 300 entries, the en variant
cache write self-deadlocks and the call never returns an export record,
so a single-variant fetch failure does not always end in a returned
record. -/
theorem sentinel_overflow_hang_cex :
    fetchMixed 500 Locale.ru = none ∧
    build_json_for_lot fetchMixed (fun _ => false)
        ⟨bigCache, ⟨fun _ => 0, fun _ => 0⟩⟩ 0 1 1 0 ⟨500, none, none, none⟩ =
      none := by
  refine ⟨rfl, ?_⟩
  have e1 := gcld_miss_fail fetchMixed
    ⟨bigCache, ⟨fun _ => 0, fun _ => 0⟩⟩ 0 500 Locale.ru
    (bigCache_get_fresh 0 Locale.ru) rfl
  exact build_en_hang _ _ _ _ _ _ _ _ _ rfl rfl e1
    (gcld_miss_hang _ _ _ _ _ _ (bigCache_get_fresh 0 Locale.en) rfl
      (bigCache_put_fresh Locale.en ⟨some "s", some "d"⟩ 0))

/-- The Python fallback never yields the empty string when its default
is non-empty. -/
theorem pyOrS_ne_empty (o : Option String) (d : String) (hd : d ≠ "") :
    pyOrS o d ≠ "" := by
  cases o with
  | none => exact hd
  | some s =>
      by_cases hs : s = ""
      · show (if s = "" then d else s) ≠ ""
        rw [if_pos hs]; exact hd
      · show (if s = "" then d else s) ≠ ""
        rw [if_neg hs]; exact hs

/-- The ru summary field is never empty. -/
theorem short_ru_of_ne_empty (pageRu : Option LotPage) (lot : LotShortcut) :
    short_ru_of pageRu lot ≠ "" := by
  cases pageRu with
  | none =>
      show ("1" : String) ≠ ""
      decide
  | some pg => exact pyOrS_ne_empty _ _ (pyOrS_ne_empty _ _ (by decide))

/-- The en summary field is never empty. -/
theorem short_en_of_ne_empty (pageEn : Option LotPage) :
    short_en_of pageEn ≠ "" := by
  cases pageEn with
  | none =>
      show ("1" : String) ≠ ""
      decide
  | some pg => exact pyOrS_ne_empty _ _ (by decide)

/-- The description fields are never empty. -/
theorem desc_of_ne_empty (page : Option LotPage) : desc_of page ≠ "" := by
  cases page with
  | none =>
      show ("1" : String) ≠ ""
      decide
  | some pg => exact pyOrS_ne_empty _ _ (by decide)

/-- The default price 1.0 renders as the numeral 1. -/
theorem price_str_of_one : price_str_of 1 = "1" := by
  unfold price_str_of
  rw [if_pos Rat.den_one, Rat.num_one]
  rfl

/-- The lot the C7 counterexample processes: item id 42, category 7. -/
def lotFortyTwo : LotShortcut :=
  ⟨42, some "listing", none, some ⟨7, "Games"⟩⟩

/-- The fetch oracle of the C7 counterexample: both variant fetches
succeed with distinctive texts. -/
def fetchFortyTwo : Nat → Locale → Option LotPage :=
  fun _ loc => match loc with
    | Locale.ru => some ⟨some "rs", some "rl"⟩
    | Locale.en => some ⟨some "es", some "el"⟩

/-- The record the processor produces for lotFortyTwo. -/
def recFortyTwo : ExportRecord :=
  { query := "", form_created_at := "1000",
    node_id := "7", location := "", deleted := "", summary_ru := "rs",
    summary_en := "es", images := "", price := "1", amount := "1",
    active := "on", desc_ru := "rl", desc_en := "el",
    payment_msg_ru := "1", payment_msg_en := "1",
    type_field := "Games" }

/-- Counterexample to C7: the merged export dict built for item 42 does
not contain the item identifier anywhere among its values — no dict key
carries it (node_id is the category identifier 7, not the item id). -/
theorem export_record_lacks_item_id :
    Option.map (fun x => x.1)
      (build_json_for_lot fetchFortyTwo (fun _ => false)
        ⟨[], ⟨fun _ => 0, fun _ => 0⟩⟩ 0 1 1 1000 lotFortyTwo) =
      some (BuildResult.ok recFortyTwo) ∧
    "42" ∉ recordValues recFortyTwo ∧
    toString (42 : Nat) = "42" := by
  refine ⟨?_, by decide, by decide⟩
  have e1 := gcld_miss_ok fetchFortyTwo
    ⟨[], ⟨fun _ => 0, fun _ => 0⟩⟩ 0 42 Locale.ru ⟨some "rs", some "rl"⟩
    (cacheInsert [] (42, Locale.ru) ⟨some "rs", some "rl"⟩ 0)
    (by simp [cacheGet, cacheLookup]) rfl rfl
  have e2 := gcld_miss_ok fetchFortyTwo
    ⟨cacheInsert [] (42, Locale.ru) ⟨some "rs", some "rl"⟩ 0,
      update_cache_stats ⟨fun _ => 0, fun _ => 0⟩ Locale.ru false⟩
    0 42 Locale.en ⟨some "es", some "el"⟩
    (cacheInsert (cacheInsert [] (42, Locale.ru) ⟨some "rs", some "rl"⟩ 0)
      (42, Locale.en) ⟨some "es", some "el"⟩ 0)
    (by simp [cacheGet, cacheLookup, cacheInsert, cacheKeys, List.find?])
    rfl rfl
  rw [build_no_cancel fetchFortyTwo (fun _ => false)
    ⟨[], ⟨fun _ => 0, fun _ => 0⟩⟩ 0 1 1 1000 lotFortyTwo (fun _ => rfl)
    _ _ e1 e2]
  simp [mkRecord, recFortyTwo, lotFortyTwo, short_ru_of, short_en_of,
    desc_of, node_id_of, sc_name_of, pyOrS, effectivePrice,
    price_str_of_one]
  exact ⟨rfl, rfl⟩

/-- C7 as amended: every record the processor returns carries the
category/node identifier, the price normalized through price_str, both
locale variants of the summary and description texts, all four non-empty
(the sentinel standing in on failure), and the static flag fields; the
item identifier itself is not among the fields. -/
theorem export_record_fields (fetch : Nat → Locale → Option LotPage)
    (cancel : Nat → Bool) (st : PState) (now dRu dEn : ℚ) (formT : Int)
    (lot : LotShortcut) (hc : ∀ i, cancel i = false)
    (resRu resEn : (Option LotPage × Bool) × PState × List Effect)
    (hru : get_cached_locale_data fetch st now lot.id Locale.ru = some resRu)
    (hen : get_cached_locale_data fetch resRu.2.1 now lot.id Locale.en = some resEn) :
    ∃ r st2 eff,
      build_json_for_lot fetch cancel st now dRu dEn formT lot =
        some (BuildResult.ok r, st2, eff) ∧
      r.node_id = toString (node_id_of lot) ∧
      r.price = price_str_of (effectivePrice lot.price) ∧
      r.form_created_at = toString formT ∧
      r.summary_ru ≠ "" ∧ r.summary_en ≠ "" ∧
      r.desc_ru ≠ "" ∧ r.desc_en ≠ "" ∧
      r.amount = "1" ∧ r.active = "on" ∧
      r.payment_msg_ru = "1" ∧ r.payment_msg_en = "1" ∧
      r.type_field = sc_name_of lot := by
  rw [build_no_cancel fetch cancel st now dRu dEn formT lot hc resRu resEn hru hen]
  exact ⟨_, _, _, rfl, rfl, rfl, rfl,
    short_ru_of_ne_empty _ _, short_en_of_ne_empty _,
    desc_of_ne_empty _, desc_of_ne_empty _, rfl, rfl, rfl, rfl, rfl⟩

/-- Witness for the amended C7 at a concrete lot. -/
theorem export_record_fields_witness :
    ∃ r st2 eff,
      build_json_for_lot (fun _ _ => none) (fun _ => false)
          ⟨[], ⟨fun _ => 0, fun _ => 0⟩⟩ 0 1 1 77 ⟨3, none, none, none⟩ =
        some (BuildResult.ok r, st2, eff) ∧
      r.node_id = toString (node_id_of ⟨3, none, none, none⟩) ∧
      r.price = price_str_of (effectivePrice (LotShortcut.price ⟨3, none, none, none⟩)) ∧
      r.form_created_at = toString (77 : Int) ∧
      r.summary_ru ≠ "" ∧ r.summary_en ≠ "" ∧
      r.desc_ru ≠ "" ∧ r.desc_en ≠ "" ∧
      r.amount = "1" ∧ r.active = "on" ∧
      r.payment_msg_ru = "1" ∧ r.payment_msg_en = "1" ∧
      r.type_field = sc_name_of ⟨3, none, none, none⟩ :=
  export_record_fields (fun _ _ => none) (fun _ => false)
    ⟨[], ⟨fun _ => 0, fun _ => 0⟩⟩ 0 1 1 77 ⟨3, none, none, none⟩
    (fun _ => rfl)
    ((none, false),
      ⟨[], update_cache_stats ⟨fun _ => 0, fun _ => 0⟩ Locale.ru false⟩,
      [Effect.fetched 3 Locale.ru])
    ((none, false),
      ⟨[], update_cache_stats (update_cache_stats ⟨fun _ => 0, fun _ => 0⟩
        Locale.ru false) Locale.en false⟩,
      [Effect.fetched 3 Locale.en])
    rfl rfl

/-- The lot of the C10 counterexample: a non-empty listing description. -/
def lotListing : LotShortcut := ⟨42, some "LISTING", none, none⟩

/-- The record the processor produces for lotListing when both fetches
fail on an empty cache: every text field is the sentinel. -/
def recListing : ExportRecord :=
  { query := "", form_created_at := "0", node_id := "0", location := "",
    deleted := "", summary_ru := "1", summary_en := "1", images := "",
    price := "1", amount := "1", active := "on", desc_ru := "1",
    desc_en := "1", payment_msg_ru := "1", payment_msg_en := "1",
    type_field := "???" }

/-- Counterexample to C10: with the ru page missing (failed fetch) and a
non-empty listing description "LISTING" on the lot, the exported ru
summary is the sentinel "1" — the listing-description fallback is NOT
applied in the missing-page case, only when a page is present with an
empty short summary. -/
theorem ru_missing_page_sentinel_cex :
    Option.map (fun x => x.1)
      (build_json_for_lot (fun _ _ => none) (fun _ => false)
        ⟨[], ⟨fun _ => 0, fun _ => 0⟩⟩ 0 1 1 0 lotListing) =
      some (BuildResult.ok recListing) ∧
    recListing.summary_ru = "1" ∧
    lotListing.description = some "LISTING" ∧
    ("1" : String) ≠ "LISTING" := by
  refine ⟨?_, rfl, rfl, by decide⟩
  have e1 := gcld_miss_fail (fun _ _ => none)
    ⟨[], ⟨fun _ => 0, fun _ => 0⟩⟩ 0 42 Locale.ru
    (by simp [cacheGet, cacheLookup]) rfl
  have e2 := gcld_miss_fail (fun _ _ => none)
    ⟨[], update_cache_stats ⟨fun _ => 0, fun _ => 0⟩ Locale.ru false⟩
    0 42 Locale.en (by simp [cacheGet, cacheLookup]) rfl
  rw [build_no_cancel (fun _ _ => none) (fun _ => false)
    ⟨[], ⟨fun _ => 0, fun _ => 0⟩⟩ 0 1 1 0 lotListing (fun _ => rfl)
    _ _ e1 e2]
  simp [mkRecord, recListing, lotListing, short_ru_of, short_en_of,
    desc_of, node_id_of, sc_name_of, effectivePrice, price_str_of_one]
  exact ⟨rfl, rfl⟩

/-- C10 as amended: the two variants fall back asymmetrically, and the
listing-description step applies only when the ru page is present.  With
a present ru page the exported ru summary is the chain
pyOrS short (pyOrS lot.description "1") — in particular a page whose
short summary is absent together with a non-empty listing description
exports the listing description; with the ru page missing the summary is
the sentinel "1" directly; the en summary and both descriptions fall
back directly to the sentinel with no intermediate step. -/
theorem ru_fallback_asymmetry (fetch : Nat → Locale → Option LotPage)
    (cancel : Nat → Bool) (st : PState) (now dRu dEn : ℚ) (formT : Int)
    (lot : LotShortcut) (hc : ∀ i, cancel i = false) :
    (∀ pgRu resEn,
      cacheGet st.cache now (lot.id, Locale.ru) = (some pgRu, true) →
      get_cached_locale_data fetch
          { st with stats := update_cache_stats st.stats Locale.ru true }
          now lot.id Locale.en = some resEn →
      ∃ r st2 eff,
        build_json_for_lot fetch cancel st now dRu dEn formT lot =
          some (BuildResult.ok r, st2, eff) ∧
        r.summary_ru = pyOrS pgRu.short_description (pyOrS lot.description "1") ∧
        r.desc_ru = pyOrS pgRu.full_description "1" ∧
        (pgRu.short_description = none →
          ∀ d, lot.description = some d → d ≠ "" → r.summary_ru = d)) ∧
    (∀ resEn,
      cacheGet st.cache now (lot.id, Locale.ru) = (none, false) →
      fetch lot.id Locale.ru = none →
      get_cached_locale_data fetch
          { st with stats := update_cache_stats st.stats Locale.ru false }
          now lot.id Locale.en = some resEn →
      ∃ r st2 eff,
        build_json_for_lot fetch cancel st now dRu dEn formT lot =
          some (BuildResult.ok r, st2, eff) ∧
        r.summary_ru = "1" ∧ r.desc_ru = "1") ∧
    (∀ resRu pgEn,
      get_cached_locale_data fetch st now lot.id Locale.ru = some resRu →
      cacheGet resRu.2.1.cache now (lot.id, Locale.en) = (some pgEn, true) →
      ∃ r st2 eff,
        build_json_for_lot fetch cancel st now dRu dEn formT lot =
          some (BuildResult.ok r, st2, eff) ∧
        r.summary_en = pyOrS pgEn.short_description "1" ∧
        r.desc_en = pyOrS pgEn.full_description "1") := by
  refine ⟨?_, ?_, ?_⟩
  · intro pgRu resEn h1 hEn
    have e1 := gcld_hit fetch st now lot.id Locale.ru pgRu h1
    rw [build_no_cancel fetch cancel st now dRu dEn formT lot hc _ _ e1 hEn]
    refine ⟨_, _, _, rfl, by simp [mkRecord, short_ru_of],
      by simp [mkRecord, desc_of], ?_⟩
    intro hnone d hd hdne
    simp [mkRecord, short_ru_of, pyOrS, hnone, hd, hdne]
  · intro resEn h1 hf hEn
    have e1 := gcld_miss_fail fetch st now lot.id Locale.ru h1 hf
    rw [build_no_cancel fetch cancel st now dRu dEn formT lot hc _ _ e1 hEn]
    exact ⟨_, _, _, rfl, by simp [mkRecord, short_ru_of],
      by simp [mkRecord, desc_of]⟩
  · intro resRu pgEn hru h2
    have e2 := gcld_hit fetch resRu.2.1 now lot.id Locale.en pgEn h2
    rw [build_no_cancel fetch cancel st now dRu dEn formT lot hc resRu _ hru e2]
    exact ⟨_, _, _, rfl, by simp [mkRecord, short_en_of],
      by simp [mkRecord, desc_of]⟩

/-- Witness for the amended C10: a cached ru page with an absent short
summary, together with the non-empty listing description, exports the
listing description. -/
theorem ru_fallback_asymmetry_witness :
    ∃ r st2 eff,
      build_json_for_lot (fun _ _ => none) (fun _ => false)
          ⟨[⟨(8, Locale.ru), ⟨none, some "full"⟩, 0⟩],
           ⟨fun _ => 0, fun _ => 0⟩⟩ 5 1 1 0 ⟨8, some "LISTING", none, none⟩ =
        some (BuildResult.ok r, st2, eff) ∧
      r.summary_ru = pyOrS (LotPage.short_description ⟨none, some "full"⟩)
        (pyOrS (LotShortcut.description ⟨8, some "LISTING", none, none⟩) "1") ∧
      r.desc_ru = pyOrS (LotPage.full_description ⟨none, some "full"⟩) "1" ∧
      (LotPage.short_description ⟨none, some "full"⟩ = none →
        ∀ d, LotShortcut.description ⟨8, some "LISTING", none, none⟩ = some d →
          d ≠ "" → r.summary_ru = d) :=
  (ru_fallback_asymmetry (fun _ _ => none) (fun _ => false)
      ⟨[⟨(8, Locale.ru), ⟨none, some "full"⟩, 0⟩], ⟨fun _ => 0, fun _ => 0⟩⟩
      5 1 1 0 ⟨8, some "LISTING", none, none⟩ (fun _ => rfl)).1
    ⟨none, some "full"⟩
    ((none, false),
      ⟨[⟨(8, Locale.ru), ⟨none, some "full"⟩, 0⟩],
        update_cache_stats (update_cache_stats ⟨fun _ => 0, fun _ => 0⟩
          Locale.ru true) Locale.en false⟩,
      [Effect.fetched 8 Locale.en])
    (by simp [cacheGet, cacheLookup, List.find?]; norm_num [LOCALE_CACHE_TTL])
    rfl

/-- The mutations the module ever applies to a cancellation Event: the
set() call in cmd_cancel (source line 621) and the set() call in
handle_callback (source line 653).  No call site ever calls clear(). -/
inductive TokenOp
  | signalFromCancelCmd
  | signalFromCancelButton

/-- The effect of one mutation on the signaled flag, with threading.Event
semantics: set() makes is_set() return True. -/
def applyTokenOp (_sig : Bool) : TokenOp → Bool
  | TokenOp.signalFromCancelCmd => true
  | TokenOp.signalFromCancelButton => true

/-- C6: every mutation the module can apply to a signaled token leaves it
signaled (cancellation is one-way), and a Process call entered with the
token already set returns the canceled outcome at the entry check, with
no fetch, no sleep, and the shared state untouched. -/
theorem cancellation_monotone :
    (∀ ops : List TokenOp, List.foldl applyTokenOp true ops = true) ∧
    (∀ (fetch : Nat → Locale → Option LotPage) (cancel : Nat → Bool)
      (st : PState) (now dRu dEn : ℚ) (formT : Int) (lot : LotShortcut),
      cancel 0 = true →
      process_lot fetch cancel st now dRu dEn formT lot =
        some (none, LotStatus.canceled, st, [])) := by
  constructor
  · intro ops
    induction ops with
    | nil => rfl
    | cons op rest ih => cases op <;> simpa [applyTokenOp] using ih
  · intro fetch cancel st now dRu dEn formT lot h0
    unfold process_lot
    rw [h0]
    simp

/-- Witness for C6: a set token makes a concrete Process call return
canceled with no effects. -/
theorem cancellation_monotone_witness :
    process_lot (fun _ _ => none) (fun _ => true)
        ⟨[], ⟨fun _ => 0, fun _ => 0⟩⟩ 0 1 1 0 ⟨1, none, none, none⟩ =
      some (none, LotStatus.canceled, ⟨[], ⟨fun _ => 0, fun _ => 0⟩⟩, []) :=
  cancellation_monotone.2 (fun _ _ => none) (fun _ => true)
    ⟨[], ⟨fun _ => 0, fun _ => 0⟩⟩ 0 1 1 0 ⟨1, none, none, none⟩ rfl

/-- The conversation states STATE_WAIT_LINK and STATE_PROCESSING. -/
inductive SessionStep
  | waitLink
  | processing
  deriving DecidableEq

/-- The per-chat registries the command handlers consult: user_data maps
a chat to its state-machine step, active_tasks maps a chat to the done()
flag of the future submitted for it. -/
structure BotState where
  user_data : List (Nat × SessionStep)
  active_tasks : List (Nat × Bool)
  deriving DecidableEq

/-- Python dict read, as an association-list lookup. -/
def lookupKey {α : Type} (l : List (Nat × α)) (k : Nat) : Option α :=
  match l.find? (fun p => decide (p.1 = k)) with
  | some p => some p.2
  | none => none

/-- Python dict write: an existing key keeps its position and has its
value replaced, a new key is appended. -/
def setKey {α : Type} (l : List (Nat × α)) (k : Nat) (v : α) : List (Nat × α) :=
  if k ∈ l.map (fun p => p.1) then
    l.map (fun p => if p.1 = k then (k, v) else p)
  else l ++ [(k, v)]

/-- Outcome of a start request. -/
inductive StartOutcome
  | rejected
  | accepted
  deriving DecidableEq

/-- cmd_steal_lots (source lines 592-610): the start request is rejected
exactly when the chat has an entry in active_tasks whose future is not
done; otherwise user_data[chat_id] is set to the wait-link step and the
prompt is sent. -/
def cmd_steal_lots (chatId : Nat) (st : BotState) : StartOutcome × BotState :=
  match lookupKey st.active_tasks chatId with
  | some false => (StartOutcome.rejected, st)
  | _ => (StartOutcome.accepted,
      { st with user_data := setKey st.user_data chatId SessionStep.waitLink })

/-- Counterexample to C8: a caller sitting in the AwaitingLink state
(user_data holds the wait-link step, active_tasks holds nothing, since a
task is only submitted when the link arrives) issues a second start
request and it is ACCEPTED, not rejected — the guard consults only
active_tasks. -/
theorem start_in_awaiting_link_accepted_cex :
    cmd_steal_lots 1 ⟨[(1, SessionStep.waitLink)], []⟩ =
      (StartOutcome.accepted, ⟨[(1, SessionStep.waitLink)], []⟩) ∧
    StartOutcome.accepted ≠ StartOutcome.rejected := by
  exact ⟨by decide, by decide⟩

/-- C8 as amended: a start request is rejected, with no state change,
exactly when the caller has a submitted task whose future is not yet done
(the Processing phase); in every other situation — including a caller in
AwaitingLink with no running task — the request is accepted and (re)sets
the caller's step to wait-link. -/
theorem start_session_guard (chatId : Nat) (st : BotState) :
    (lookupKey st.active_tasks chatId = some false →
      cmd_steal_lots chatId st = (StartOutcome.rejected, st)) ∧
    (lookupKey st.active_tasks chatId ≠ some false →
      cmd_steal_lots chatId st =
        (StartOutcome.accepted,
          { st with user_data := setKey st.user_data chatId SessionStep.waitLink })) := by
  constructor
  · intro h
    unfold cmd_steal_lots
    rw [h]
  · intro h
    unfold cmd_steal_lots
    cases hl : lookupKey st.active_tasks chatId with
    | none => rfl
    | some b =>
        cases b with
        | false => exact absurd hl h
        | true => rfl

/-- Witness for the amended C8: a running (not done) task for chat 2
makes the start request rejected with the state unchanged. -/
theorem start_session_guard_witness :
    cmd_steal_lots 2 ⟨[(2, SessionStep.processing)], [(2, false)]⟩ =
      (StartOutcome.rejected, ⟨[(2, SessionStep.processing)], [(2, false)]⟩) :=
  (start_session_guard 2 ⟨[(2, SessionStep.processing)], [(2, false)]⟩).1 rfl

/-- The scheduling state of the worker pool: counts of submitted tasks
not yet started, tasks running on a worker, and finished tasks. -/
structure PoolState where
  pending : Nat
  running : Nat
  finished : Nat
  deriving DecidableEq

/-- Small-step semantics of the ThreadPoolExecutor(max_workers=limit) use
in process_lots_parallel (source lines 385-398): all lots are submitted
up front; a pending task starts only when fewer than limit workers are
busy; a running task finishes; cancellation discards the not-yet-started
tasks (future.cancel, source lines 430-432). -/
inductive PoolStep (limit : Nat) : PoolState → PoolState → Prop
  | start (p r f : Nat) : 0 < p → r < limit →
      PoolStep limit ⟨p, r, f⟩ ⟨p - 1, r + 1, f⟩
  | finish (p r f : Nat) : 0 < r →
      PoolStep limit ⟨p, r, f⟩ ⟨p, r - 1, f + 1⟩
  | cancelPending (p r f : Nat) :
      PoolStep limit ⟨p, r, f⟩ ⟨0, r, f⟩

/-- C9: starting from the state in which the n submitted lots are all
pending and no worker is busy, every state the pool can reach has at most
MAX_WORKERS = 8 item-processor invocations running simultaneously. -/
theorem pool_concurrency_bound (n : Nat) (s : PoolState)
    (h : Relation.ReflTransGen (PoolStep MAX_WORKERS) ⟨n, 0, 0⟩ s) :
    s.running ≤ MAX_WORKERS := by
  have key : ∀ a b, PoolStep MAX_WORKERS a b → a.running ≤ MAX_WORKERS →
      b.running ≤ MAX_WORKERS := by
    intro a b hab ha
    cases hab with
    | start p r f hp hr => exact hr
    | finish p r f hr => exact le_trans (Nat.sub_le _ _) ha
    | cancelPending p r f => exact ha
  induction h with
  | refl => exact Nat.zero_le _
  | tail hst hstep ih => exact key _ _ hstep ih

/-- Witness for C9: after one start step from three pending lots, one
worker is busy, within the bound. -/
theorem pool_concurrency_bound_witness :
    PoolState.running ⟨2, 1, 0⟩ ≤ MAX_WORKERS :=
  pool_concurrency_bound 3 ⟨2, 1, 0⟩
    (Relation.ReflTransGen.single (PoolStep.start 3 0 0 (by decide) (by decide)))

end AutoCopy
